import Mathlib

/-!
Shallow embedding of the analytics synthesis engine of `src/main.py`
(a FastAPI service deriving star/fork time series for a repository).

Modelling conventions:
* Python `float` arithmetic is modelled exactly over `ℚ` (and over `ℝ` for the
  one genuinely irrational operation, `pow(growth_progress, 1.5)` in the growth
  model).  Python `int(x)` is truncation toward zero (`pyInt` / `pyIntQ`);
  Python `//` on integers is floor division (`Int.fdiv`).
* `datetime` values are civil timestamps `⟨year, month, day, tod⟩` with
  lexicographic order (`tod` = time of day in microseconds); `civilToDays` is
  the standard Gregorian day-numbering (days since 1970-01-01) underlying
  `timedelta` arithmetic, and weekdays are taken modulo 7 from it
  (1970-01-01 was a Thursday, Python counts Monday as 0).
* `random.random()` is an injected deterministic stream `rand : ℕ → ℚ`,
  consumed in call order via an explicit index, as the pluggable
  source-of-randomness the design notes ask for.
* Star events (`stargazers` entries) are `Option Datetime`: `none` stands for
  a missing or unparseable `starred_at` (skipped by the code's `try/except`).
* Only the parts of `main.py` the verified claims mention are embedded:
  `classify_repository`, the monthly-history synthesis with its reconciliation
  step, the country-distribution estimator and `generate_daily_analytics`
  inside `generate_real_analytics_data`.  The legacy single-year monthly
  aggregator and all HTTP plumbing are out of scope.
-/

/-- Python `int(x)` on a real: truncation toward zero. -/
noncomputable def pyInt (x : ℝ) : ℤ :=
  if 0 ≤ x then ⌊x⌋ else -⌊-x⌋

/-- Python `int(x)` on a rational: truncation toward zero (computable). -/
def pyIntQ (q : ℚ) : ℤ :=
  if 0 ≤ q then ⌊q⌋ else -⌊-q⌋

theorem pyInt_ratCast (q : ℚ) : pyInt (q : ℝ) = pyIntQ q := by
  simp [pyInt, pyIntQ, ← Rat.cast_neg, Rat.floor_cast]

theorem pyInt_intCast (n : ℤ) : pyInt (n : ℝ) = n := by
  unfold pyInt
  split_ifs with h
  · exact Int.floor_intCast n
  · rw [← Int.cast_neg, Int.floor_intCast]; ring

@[simp] theorem pyIntQ_intCast (n : ℤ) : pyIntQ (n : ℚ) = n := by
  unfold pyIntQ
  split_ifs with h
  · exact Int.floor_intCast n
  · rw [← Int.cast_neg, Int.floor_intCast]; ring

@[simp] theorem pyInt_zero : pyInt 0 = 0 := by
  simp [pyInt]

/-- A Python `datetime` value: civil date plus time of day (`tod`, in
microseconds since midnight; any nonnegative resolution works since `tod`
is only ever compared and never converted). -/
structure Datetime where
  year : ℤ
  month : ℤ
  day : ℤ
  tod : ℤ
deriving DecidableEq, Repr

/-- Python `datetime` comparison `a <= b`: lexicographic on
(year, month, day, time-of-day). -/
def dtLe (a b : Datetime) : Bool :=
  if a.year ≠ b.year then a.year < b.year
  else if a.month ≠ b.month then a.month < b.month
  else if a.day ≠ b.day then a.day < b.day
  else a.tod ≤ b.tod

/-- Day number of a civil date (days since 1970-01-01), the standard
Gregorian-calendar day count (Howard Hinnant's `days_from_civil`), which is
the arithmetic underlying Python's `date` subtraction and `.weekday()`. -/
def civilToDays (y m d : ℤ) : ℤ :=
  let y' := if m ≤ 2 then y - 1 else y
  let era := y'.fdiv 400
  let yoe := y' - era * 400
  let doy := (153 * (m + (if 2 < m then -3 else 9)) + 2).fdiv 5 + d - 1
  let doe := yoe * 365 + yoe.fdiv 4 - yoe.fdiv 100 + doy
  era * 146097 + doe - 719468

/-- Day number of a `Datetime`'s civil date. -/
def dtDays (a : Datetime) : ℤ := civilToDays a.year a.month a.day

/-- Python `date.weekday()` (Monday = 0) of an absolute day number;
1970-01-01 (day 0) was a Thursday (= 3). -/
def weekdayOf (d : ℤ) : ℤ := (d + 3).emod 7

/-- `(today - created).days` of Python `timedelta`: floor of the exact
difference in days. -/
def timedeltaDays (created today : Datetime) : ℤ :=
  (dtDays today - dtDays created) - (if today.tod < created.tod then 1 else 0)

/-- The Growth Model curve of `generate_real_analytics_data`
(src/main.py lines 284-297): the three-phase `growth_factor` as a function of
normalized progress `p` (early linear ramp, superlinear growth phase using
`pow(growth_progress, 1.5)`, linear maturity phase). -/
noncomputable def growth_factor (p : ℝ) : ℝ :=
  if p ≤ 0.2 then
    p * 0.25
  else if p ≤ 0.6 then
    0.05 + ((p - 0.2) / 0.4) ^ (1.5 : ℝ) * 0.35
  else
    0.4 + ((p - 0.6) / 0.4) * 0.6

/-- `target_cumulative = int(total_stars * min(1.0, growth_factor))` with
`progress = months_since_creation / total_months` (src/main.py lines 276, 300). -/
noncomputable def target_cumulative (totalStars msc tm : ℤ) : ℤ :=
  pyInt ((totalStars : ℝ) * min 1 (growth_factor ((msc : ℝ) / (tm : ℝ))))

theorem target_cumulative_msc_zero (s tm : ℤ) : target_cumulative s 0 tm = 0 := by
  have h : growth_factor ((0 : ℤ) / (tm : ℝ)) = 0 := by
    unfold growth_factor
    norm_num
  unfold target_cumulative
  rw [show ((0 : ℤ) : ℝ) = 0 by norm_num] at *
  rw [h]
  norm_num

theorem target_cumulative_one_one (s : ℤ) : target_cumulative s 1 1 = s := by
  have h : growth_factor ((1 : ℤ) / ((1 : ℤ) : ℝ)) = 1 := by
    unfold growth_factor
    norm_num
  unfold target_cumulative
  rw [h]
  norm_num
  exact pyInt_intCast s

/-- The repository snapshot fields `generate_real_analytics_data` reads. -/
structure RepoSnapshot where
  created_at : Datetime
  stargazers_count : ℤ
  forks_count : ℤ

/-- One entry of the complete monthly history (src/main.py lines 327-337).
The `month`/`month_key`/`date` labels of the Python dict are all determined by
`(year, month)`, which is what we store. -/
structure MonthlyRecord where
  year : ℤ
  month : ℤ
  stars_gained : ℤ
  forks_gained : ℤ
  total_stars_before : ℤ
  total_stars_after : ℤ
  total_forks_before : ℤ
  total_forks_after : ℤ
deriving DecidableEq, Repr

/-- Linear month index of a civil (year, month): `12 * year + (month - 1)`. -/
def monthIdx (y m : ℤ) : ℤ := 12 * y + m - 1

/-- Year of a linear month index. -/
def cmY (i : ℤ) : ℤ := i.fdiv 12

/-- Month (1..12) of a linear month index. -/
def cmM (i : ℤ) : ℤ := i.fmod 12 + 1

/-- The loop variable `current_month` of the monthly loop: first day of the
month at index `i`, keeping the creation timestamp's time of day (Python's
`created_date.replace(day=1)` keeps the time component). -/
def mkCurrentMonth (i tod : ℤ) : Datetime :=
  { year := cmY i, month := cmM i, day := 1, tod := tod }

/-- `months_since_creation` (src/main.py line 271) for the month at index `i`. -/
def months_since_creation (created : Datetime) (i : ℤ) : ℤ :=
  (cmY i - created.year) * 12 + (cmM i - created.month)

/-- `total_months = max(1, ...)` (src/main.py line 272). -/
def total_months (created current : Datetime) : ℤ :=
  max 1 ((current.year - created.year) * 12 + (current.month - created.month))

/-- `fork_ratio = forks_count / max(1, stargazers_count)` (src/main.py line 323,
and the unclamped part of line 595). -/
def fork_ratio (forks stars : ℤ) : ℚ :=
  (forks : ℚ) / ((max 1 stars : ℤ) : ℚ)

/-- Count of star events falling in calendar month `(y, m)`
(src/main.py lines 258-267); `none` events (missing or unparseable
`starred_at`) are skipped. -/
def starsInMonth (stargazers : List (Option Datetime)) (y m : ℤ) : ℤ :=
  (stargazers.countP (fun s => match s with
    | some d => d.year == y && d.month == m
    | none => false) : ℤ)

theorem cmY_cmM_monthIdx (i : ℤ) : monthIdx (cmY i) (cmM i) = i := by
  have h := Int.fdiv_add_fmod i 12
  simp only [monthIdx, cmY, cmM]
  omega

theorem months_since_creation_eq (created : Datetime) (i : ℤ) :
    months_since_creation created i = i - monthIdx created.year created.month := by
  have h := Int.fdiv_add_fmod i 12
  simp only [months_since_creation, monthIdx, cmY, cmM]
  ring_nf
  omega

theorem fmod12_bounds (i : ℤ) : 0 ≤ i.fmod 12 ∧ i.fmod 12 < 12 :=
  ⟨Int.fmod_nonneg' i (by norm_num), Int.fmod_lt_of_pos i (by norm_num)⟩

/-- If the loop guard `current_month <= current_date` holds, the month index is
(strictly) below a bound depending only on `current`, so the loop terminates. -/
theorem month_lt_of_dtLe (i tod : ℤ) (cur : Datetime)
    (h : dtLe (mkCurrentMonth i tod) cur = true) :
    i < 12 * cur.year + 12 + max 0 cur.month := by
  have h1 := Int.fdiv_add_fmod i 12
  have h2 := fmod12_bounds i
  simp only [dtLe, mkCurrentMonth, cmY, cmM] at h
  split_ifs at h <;> simp only [decide_eq_true_eq] at h <;> omega

/-- The monthly synthesis loop of `generate_real_analytics_data`
(src/main.py lines 253-343), iterating `current_month` (month index `i`) while
`current_month <= current_date`.  State: running cumulative stars and forks and
the next index `k` into the injected random stream.  Returns the built records
together with the final random index.  The real per-month star count
`stars_this_month_real` is computed exactly as in the source and then, as in
the source, unconditionally overwritten by the Growth-Model branch (or by 0). -/
noncomputable def monthlyLoop (repo : RepoSnapshot) (stargazers : List (Option Datetime))
    (current : Datetime) (rand : ℕ → ℚ) (i : ℤ) (cumS cumF : ℤ) (k : ℕ) :
    List MonthlyRecord × ℕ :=
  if h : dtLe (mkCurrentMonth i repo.created_at.tod) current then
    let stars_this_month_real : ℤ := starsInMonth stargazers (cmY i) (cmM i)
    let msc := months_since_creation repo.created_at i
    let tm := total_months repo.created_at current
    let starsK : ℤ × ℕ :=
      if 0 < tm ∧ 0 ≤ msc then
        let target := target_cumulative repo.stargazers_count msc tm
        let s1 := max 0 (target - cumS)
        if 0 < s1 then
          let variation_percent : ℚ := (rand k - 1 / 2) * (6 / 10)
          let variation := pyIntQ ((s1 : ℚ) * variation_percent)
          let s2 := max 0 (s1 + variation)
          let s3 := if cmM i ∈ ([3, 4, 9, 10, 11] : List ℤ)
                    then pyIntQ ((s2 : ℚ) * (11 / 10)) else s2
          (s3, k + 1)
        else (s1, k)
      else ((0 : ℤ), k)
    let stars_this_month := starsK.1
    let cumS' := cumS + stars_this_month
    let forks_this_month :=
      if 0 < stars_this_month
      then pyIntQ ((stars_this_month : ℚ) * fork_ratio repo.forks_count repo.stargazers_count)
      else 0
    let cumF' := cumF + forks_this_month
    let r : MonthlyRecord :=
      { year := cmY i, month := cmM i,
        stars_gained := stars_this_month, forks_gained := forks_this_month,
        total_stars_before := cumS' - stars_this_month, total_stars_after := cumS',
        total_forks_before := cumF' - forks_this_month, total_forks_after := cumF' }
    let rest := monthlyLoop repo stargazers current rand (i + 1) cumS' cumF' starsK.2
    (r :: rest.1, rest.2)
  else ([], k)
termination_by (12 * current.year + 12 + max 0 current.month - i).toNat
decreasing_by
  have := month_lt_of_dtLe i repo.created_at.tod current h
  omega

/-- Sum of `stars_gained` over a history (src/main.py line 347). -/
def sumStarsGained (l : List MonthlyRecord) : ℤ := (l.map (·.stars_gained)).sum

/-- Sum of `forks_gained` over a history (src/main.py line 348). -/
def sumForksGained (l : List MonthlyRecord) : ℤ := (l.map (·.forks_gained)).sum

/-- Apply `upd` to the first `n` elements of a list. -/
def updateFirstN (upd : MonthlyRecord → MonthlyRecord) :
    ℕ → List MonthlyRecord → List MonthlyRecord
  | 0, l => l
  | _ + 1, [] => []
  | n + 1, r :: t => upd r :: updateFirstN upd n t

/-- The star-adjustment loop (src/main.py lines 362-364): add `per` to
`stars_gained`, clamped at 0, on the last `n` records. -/
def adjustLastStars (per : ℤ) (n : ℕ) (l : List MonthlyRecord) : List MonthlyRecord :=
  (updateFirstN (fun r => { r with stars_gained := max 0 (r.stars_gained + per) }) n l.reverse).reverse

/-- The fork-adjustment loop (src/main.py lines 370-372). -/
def adjustLastForks (per : ℤ) (n : ℕ) (l : List MonthlyRecord) : List MonthlyRecord :=
  (updateFirstN (fun r => { r with forks_gained := max 0 (r.forks_gained + per) }) n l.reverse).reverse

/-- Re-walk of the sequence recomputing every before/after cumulative field
(src/main.py lines 374-384). -/
def recomputeTotals : ℤ → ℤ → List MonthlyRecord → List MonthlyRecord
  | _, _, [] => []
  | rs, rf, r :: t =>
    let rs' := rs + r.stars_gained
    let rf' := rf + r.forks_gained
    { r with total_stars_before := rs, total_stars_after := rs',
             total_forks_before := rf, total_forks_after := rf' }
      :: recomputeTotals rs' rf' t

/-- The final adjustment of the monthly history (src/main.py lines 345-384):
if the simulated totals are off the authoritative totals by more than 5%,
distribute the (floor-divided) difference over the last `min 3 length` months,
then recompute all cumulative fields. -/
def reconcileHistory (actualStars actualForks : ℤ) (l : List MonthlyRecord) :
    List MonthlyRecord :=
  if l.isEmpty then l
  else
    let stars_diff := actualStars - sumStarsGained l
    let forks_diff := actualForks - sumForksGained l
    let mta : ℕ := min 3 l.length
    let l1 := if ((|stars_diff| : ℤ) : ℚ) > (actualStars : ℚ) * (5 / 100)
              then adjustLastStars (stars_diff.fdiv (mta : ℤ)) mta l else l
    let l2 := if ((|forks_diff| : ℤ) : ℚ) > (actualForks : ℚ) * (5 / 100)
              then adjustLastForks (forks_diff.fdiv (mta : ℤ)) mta l1 else l1
    recomputeTotals 0 0 l2

/-- The complete monthly history (`history` in the returned analytics dict):
the monthly loop started at the creation month, followed by reconciliation.
Also returns the final random-stream index (the daily generator continues
from it). -/
noncomputable def monthlyHistory (repo : RepoSnapshot) (stargazers : List (Option Datetime))
    (current : Datetime) (rand : ℕ → ℚ) : List MonthlyRecord × ℕ :=
  let raw := monthlyLoop repo stargazers current rand
    (monthIdx repo.created_at.year repo.created_at.month) 0 0 0
  (reconcileHistory repo.stargazers_count repo.forks_count raw.1, raw.2)

/-- One entry of a daily series (src/main.py lines 602-612).  `date` is the
absolute day number of the record's date string (a bijective stand-in for the
`"%Y-%m-%d"` label). -/
structure DailyRecord where
  date : ℤ
  value : ℤ
  cumulative : ℤ
deriving DecidableEq, Repr

/-- Count of star events on absolute day `d` (src/main.py lines 552-560). -/
def starsOnDay (stargazers : List (Option Datetime)) (d : ℤ) : ℤ :=
  (stargazers.countP (fun s => match s with
    | some t => dtDays t == d
    | none => false) : ℤ)

/-- Body of `generate_daily_analytics` (src/main.py lines 547-612), iterating
over the remaining `i` values of `range(30, -1, -1)`.  State: the star and
fork record lists built so far and the next random-stream index. -/
def dailyLoop (repo : RepoSnapshot) (stargazers : List (Option Datetime))
    (today : Datetime) (rand : ℕ → ℚ) :
    List ℕ → List DailyRecord × List DailyRecord × ℕ →
    List DailyRecord × List DailyRecord × ℕ
  | [], st => st
  | i :: rest, (ds, df, k) =>
    let date := dtDays today - (i : ℤ)
    let stars_real := starsOnDay stargazers date
    let starsK : ℤ × ℕ :=
      if stargazers.isEmpty || stargazers.length < 10 then
        let repo_age_days := timedeltaDays repo.created_at today
        if 0 < repo_age_days then
          let lifetime_avg : ℚ := (repo.stargazers_count : ℚ) / (repo_age_days : ℚ)
          let recency_factor : ℚ := 1 + (((30 : ℤ) - (i : ℤ)) : ℚ) * (2 / 100)
          let weekday_factor : ℚ := if weekdayOf date < 5 then 12 / 10 else 6 / 10
          let random_factor : ℚ := 7 / 10 + rand k * (6 / 10)
          let sc := max 0 (pyIntQ (lifetime_avg * recency_factor * weekday_factor * random_factor))
          let max_daily := max 1 (repo.stargazers_count.fdiv 20)
          (min sc max_daily, k + 1)
        else ((0 : ℤ), k)
      else (stars_real, k)
    let dayForkRatio : ℚ := min (3 / 10) (fork_ratio repo.forks_count repo.stargazers_count)
    let forks_count :=
      max 0 (pyIntQ ((starsK.1 : ℚ) * dayForkRatio * (8 / 10 + rand starsK.2 * (4 / 10))))
    let cum_s := (ds.map (·.value)).sum + starsK.1
    let cum_f := (df.map (·.value)).sum + forks_count
    dailyLoop repo stargazers today rand rest
      (ds ++ [{ date := date, value := starsK.1, cumulative := cum_s }],
       df ++ [{ date := date, value := forks_count, cumulative := cum_f }],
       starsK.2 + 1)

/-- `generate_daily_analytics` (src/main.py lines 540-617): one record per day
for `i in range(30, -1, -1)`, starting the random stream at index `k0`. -/
def generate_daily_analytics (repo : RepoSnapshot) (stargazers : List (Option Datetime))
    (today : Datetime) (rand : ℕ → ℚ) (k0 : ℕ) :
    List DailyRecord × List DailyRecord × ℕ :=
  dailyLoop repo stargazers today rand ((List.range 31).map (fun j => 30 - j)) ([], [], k0)

/-- A contributor as used by the distribution estimator: login and
contribution count. -/
structure ContributorRecord where
  login : String
  contributions : ℤ

/-- One entry of a country distribution list. -/
structure CountryEntry where
  country : String
  value : ℤ
deriving DecidableEq, Repr

/-- `p` is a leading segment of `s`. -/
def leadsList : List Char → List Char → Bool
  | [], _ => true
  | _ :: _, [] => false
  | a :: p, b :: s => a == b && leadsList p s

/-- `p` occurs as a contiguous segment of `s` (Python's `p in s` on strings). -/
def subList (p : List Char) : List Char → Bool
  | [] => p.isEmpty
  | c :: s => leadsList p (c :: s) || subList p s

/-- Python `pat in s` substring test. -/
def strHas (s pat : String) : Bool := subList pat.toList s.toList

/-- Python `any(kw in s for kw in pats)`. -/
def strHasAny (s : String) (pats : List String) : Bool := pats.any (fun p => strHas s p)

/-- Python `str.lower()` (ASCII lowercasing, per character; structurally
recursive so that concrete runs reduce). -/
def strLower (s : String) : String := String.mk (s.data.map Char.toLower)

/-- The login-pattern country heuristic (src/main.py lines 450-469). -/
def contributorCountry (login : String) : String :=
  let l := strLower login
  if strHasAny l ["de", "german"] then "Germany"
  else if strHasAny l ["uk", "brit"] then "United Kingdom"
  else if strHasAny l ["ca", "canadian"] then "Canada"
  else if strHasAny l ["fr", "french"] then "France"
  else if strHasAny l ["jp", "japan"] then "Japan"
  else if strHasAny l ["au", "aussie"] then "Australia"
  else if strHasAny l ["in", "indian"] then "India"
  else if strHasAny l ["br", "brazil"] then "Brazil"
  else "United States"

/-- Python dict `get(key, 0)` on an insertion-ordered association list. -/
def dictGet (d : List (String × ℤ)) (key : String) : ℤ :=
  match d.find? (fun p => p.1 == key) with
  | some p => p.2
  | none => 0

/-- Python dict `d[key] = v` on an insertion-ordered association list. -/
def dictSet : List (String × ℤ) → String → ℤ → List (String × ℤ)
  | [], key, v => [(key, v)]
  | p :: t, key, v => if p.1 == key then (key, v) :: t else p :: dictSet t key v

/-- The fixed fallback percentage table (src/main.py lines 479-490). -/
def countriesData : List (String × ℚ) :=
  [("United States", 35 / 100), ("Germany", 12 / 100), ("United Kingdom", 10 / 100),
   ("Canada", 8 / 100), ("France", 7 / 100), ("Japan", 6 / 100),
   ("Australia", 5 / 100), ("India", 4 / 100), ("Brazil", 4 / 100),
   ("Netherlands", 3 / 100)]

/-- `country_distribution` (src/main.py lines 444-495): contributor-derived
weights for the top-50 contributors, else the static fallback applied to the
current star total (zero entries not inserted). -/
def buildCountryDistribution (contributors : List ContributorRecord) (totalStars : ℤ) :
    List (String × ℤ) :=
  let fromContrib := (contributors.take 50).foldl
    (fun d c =>
      let country := contributorCountry c.login
      dictSet d country (dictGet d country + c.contributions)) []
  if fromContrib.isEmpty then
    countriesData.foldl (fun d p =>
      let sc := pyIntQ ((totalStars : ℚ) * p.2)
      if 0 < sc then dictSet d p.1 sc else d) []
  else fromContrib

/-- Total contribution weight (src/main.py line 498). -/
def totalContributions (d : List (String × ℤ)) : ℤ := (d.map (·.2)).sum

/-- `country_stars` before sorting (src/main.py lines 503-511). -/
def countryStarsRaw (d : List (String × ℤ)) (stars : ℤ) : List CountryEntry :=
  let total := totalContributions d
  d.foldl (fun acc p =>
    if 0 < total then
      let v := pyIntQ ((stars : ℚ) * ((p.2 : ℚ) / (total : ℚ)))
      if 0 < v then acc ++ [{ country := p.1, value := v }] else acc
    else acc) []

/-- `country_forks` before sorting (src/main.py lines 503-513). -/
def countryForksRaw (d : List (String × ℤ)) (forks : ℤ) : List CountryEntry :=
  let total := totalContributions d
  d.foldl (fun acc p =>
    if 0 < total then
      let v := pyIntQ ((forks : ℚ) * ((p.2 : ℚ) / (total : ℚ)))
      if 0 < v then acc ++ [{ country := p.1, value := v }] else acc
    else acc) []

/-- `country_clones` before sorting (src/main.py lines 503-515):
`clones_count = contributions * 10`. -/
def countryClonesRaw (d : List (String × ℤ)) : List CountryEntry :=
  let total := totalContributions d
  d.foldl (fun acc p =>
    if 0 < total then
      let v := p.2 * 10
      if 0 < v then acc ++ [{ country := p.1, value := v }] else acc
    else acc) []

/-- `list.sort(key=value, reverse=True)` (src/main.py lines 518-520): a stable
descending sort by value. -/
def sortCountryValues (l : List CountryEntry) : List CountryEntry :=
  List.insertionSort (fun a b => b.value ≤ a.value) l

/-- The repository-metadata fields `classify_repository` reads.  `none` for
`description`/`language` models a missing or `null` JSON field. -/
structure RepoMeta where
  name : String
  description : Option String
  fork : Bool
  language : Option String
deriving DecidableEq, Repr

/-- The classification record (src/main.py lines 118-123). -/
structure Classification where
  primary_language : String
  type : String
  framework : String
  category : String
deriving DecidableEq, Repr

/-- `classify_repository` (src/main.py lines 117-165).  The `languages`
argument is accepted and ignored, exactly as in the source. -/
def classify_repository (repo_data : RepoMeta) (languages : List (String × ℤ)) :
    Classification :=
  let description := strLower (repo_data.description.getD "")
  let name := strLower repo_data.name
  let inDesc := fun kw => strHas description kw
  let inEither := fun kw => strHas description kw || strHas name kw
  let framework :=
    if ["react", "nextjs", "next.js"].any inEither then "React/Next.js"
    else if ["vue", "vuejs", "nuxt"].any inEither then "Vue.js"
    else if ["angular"].any inEither then "Angular"
    else if ["django", "flask", "fastapi"].any inEither then "Python Web Framework"
    else if ["express", "node"].any inEither then "Node.js"
    else "Unknown"
  let category :=
    if ["api", "backend", "server"].any inDesc then "Backend"
    else if ["frontend", "ui", "component"].any inDesc then "Frontend"
    else if ["mobile", "ios", "android"].any inDesc then "Mobile"
    else if ["ml", "ai", "machine learning", "neural"].any inDesc then "AI/ML"
    else if ["game", "gaming"].any inDesc then "Gaming"
    else if ["tool", "cli", "utility"].any inDesc then "Tool/Utility"
    else "Unknown"
  let repoType :=
    if repo_data.fork then "Fork"
    else if ["library", "package", "npm", "pip"].any inDesc then "Library"
    else if ["template", "boilerplate", "starter"].any inDesc then "Template"
    else "Project"
  { primary_language := repo_data.language.getD "Unknown",
    type := repoType, framework := framework, category := category }

/-- The analytics bundle returned by `generate_real_analytics_data`
(src/main.py lines 525-538), restricted to the series the verified claims
mention (the legacy single-year `monthly` lists are omitted). -/
structure Analytics where
  countries_stars : List CountryEntry
  countries_forks : List CountryEntry
  countries_clones : List CountryEntry
  daily_stars : List DailyRecord
  daily_forks : List DailyRecord
  history : List MonthlyRecord

/-- `generate_real_analytics_data` (src/main.py lines 235-538): monthly
history with reconciliation, country distributions (top 8, sorted descending)
and the trailing daily window.  `stargazers` and `contributors` stand for the
data fetched by the collaborator client; `current` is `datetime.now()`;
`rand` is the injected random stream (the monthly loop consumes it first, the
daily loop continues at the returned index, as in source order). -/
noncomputable def generate_real_analytics_data (repo : RepoSnapshot)
    (stargazers : List (Option Datetime)) (contributors : List ContributorRecord)
    (current : Datetime) (rand : ℕ → ℚ) : Analytics :=
  let mh := monthlyHistory repo stargazers current rand
  let dist := buildCountryDistribution contributors repo.stargazers_count
  let daily := generate_daily_analytics repo stargazers current rand mh.2
  { countries_stars := (sortCountryValues (countryStarsRaw dist repo.stargazers_count)).take 8,
    countries_forks := (sortCountryValues (countryForksRaw dist repo.forks_count)).take 8,
    countries_clones := (sortCountryValues (countryClonesRaw dist)).take 8,
    daily_stars := daily.1,
    daily_forks := daily.2.1,
    history := mh.1 }

theorem gf_early {p : ℝ} (h : p ≤ 0.2) : growth_factor p = p * 0.25 := by
  unfold growth_factor; rw [if_pos h]

theorem gf_mid {p : ℝ} (h1 : 0.2 < p) (h2 : p ≤ 0.6) :
    growth_factor p = 0.05 + ((p - 0.2) / 0.4) ^ (1.5 : ℝ) * 0.35 := by
  unfold growth_factor; rw [if_neg (not_le.mpr h1), if_pos h2]

theorem gf_late {p : ℝ} (h : 0.6 < p) : growth_factor p = 0.4 + ((p - 0.6) / 0.4) * 0.6 := by
  unfold growth_factor
  rw [if_neg (not_le.mpr (by linarith)), if_neg (not_le.mpr h)]

theorem gf_early_bounds {p : ℝ} (h0 : 0 ≤ p) (h : p ≤ 0.2) :
    0 ≤ growth_factor p ∧ growth_factor p ≤ 0.05 := by
  rw [gf_early h]; constructor <;> linarith

theorem gf_mid_bounds {p : ℝ} (h1 : 0.2 < p) (h2 : p ≤ 0.6) :
    0.05 ≤ growth_factor p ∧ growth_factor p ≤ 0.4 := by
  rw [gf_mid h1 h2]
  have hX0 : (0 : ℝ) ≤ (p - 0.2) / 0.4 := div_nonneg (by linarith) (by norm_num)
  have hX1 : (p - 0.2) / 0.4 ≤ 1 := (div_le_one (by norm_num)).mpr (by linarith)
  have hr0 := Real.rpow_nonneg hX0 (1.5 : ℝ)
  have hr1 := Real.rpow_le_one hX0 hX1 (by norm_num : (0 : ℝ) ≤ 1.5)
  constructor <;> linarith

theorem gf_late_bounds {p : ℝ} (h1 : 0.6 < p) (h2 : p ≤ 1) :
    0.4 ≤ growth_factor p ∧ growth_factor p ≤ 1 := by
  rw [gf_late h1]
  have hX0 : (0 : ℝ) ≤ (p - 0.6) / 0.4 := div_nonneg (by linarith) (by norm_num)
  have hX1 : (p - 0.6) / 0.4 ≤ 1 := (div_le_one (by norm_num)).mpr (by linarith)
  constructor <;> linarith

theorem growth_factor_zero : growth_factor 0 = 0 := by
  rw [gf_early (by norm_num)]; norm_num

theorem growth_factor_one : growth_factor 1 = 1 := by
  rw [gf_late (by norm_num)]; norm_num

/-- C6: The Growth Model curve `growth_factor` is monotonically non-decreasing
on [0,1], bounded to [0,1], with f(0)=0, f(0.2)=0.05, f(0.6)=0.40 and f(1)=1. -/
theorem C6_growth_model_shape :
    (∀ p q : ℝ, 0 ≤ p → p ≤ q → q ≤ 1 → growth_factor p ≤ growth_factor q) ∧
    (∀ p : ℝ, 0 ≤ p → p ≤ 1 → 0 ≤ growth_factor p ∧ growth_factor p ≤ 1) ∧
    growth_factor 0 = 0 ∧ growth_factor 0.2 = 0.05 ∧
    growth_factor 0.6 = 0.4 ∧ growth_factor 1 = 1 := by
  refine ⟨?_, ?_, ?_, ?_, ?_, ?_⟩
  · intro p q hp hpq hq1
    rcases le_or_lt p 0.2 with h1 | h1
    · rcases le_or_lt q 0.2 with h2 | h2
      · rw [gf_early h1, gf_early h2]; linarith
      · rcases le_or_lt q 0.6 with h3 | h3
        · have := gf_mid_bounds h2 h3
          rw [gf_early h1]; linarith
        · have := gf_late_bounds h3 hq1
          rw [gf_early h1]; linarith
    · rcases le_or_lt p 0.6 with h2 | h2
      · rcases le_or_lt q 0.6 with h3 | h3
        · rw [gf_mid h1 h2, gf_mid (by linarith) h3]
          have hX0 : (0 : ℝ) ≤ (p - 0.2) / 0.4 := div_nonneg (by linarith) (by norm_num)
          have hXY : (p - 0.2) / 0.4 ≤ (q - 0.2) / 0.4 :=
            (div_le_div_iff_of_pos_right (by norm_num)).mpr (by linarith)
          have := Real.rpow_le_rpow hX0 hXY (by norm_num : (0 : ℝ) ≤ 1.5)
          linarith
        · have hb1 := gf_mid_bounds h1 h2
          have hb2 := gf_late_bounds h3 hq1
          linarith
      · rw [gf_late h2, gf_late (by linarith)]
        have : (p - 0.6) / 0.4 ≤ (q - 0.6) / 0.4 :=
          (div_le_div_iff_of_pos_right (by norm_num)).mpr (by linarith)
        linarith
  · intro p hp hp1
    rcases le_or_lt p 0.2 with h1 | h1
    · have := gf_early_bounds hp h1; constructor <;> linarith
    · rcases le_or_lt p 0.6 with h2 | h2
      · have := gf_mid_bounds h1 h2; constructor <;> linarith
      · have := gf_late_bounds h2 hp1; constructor <;> linarith
  · exact growth_factor_zero
  · rw [gf_early (by norm_num)]; norm_num
  · rw [gf_mid (by norm_num) (by norm_num)]
    rw [show ((0.6 : ℝ) - 0.2) / 0.4 = 1 by norm_num, Real.one_rpow]
    norm_num
  · exact growth_factor_one

/-- Witness for C6 at a concrete point of each quantified part. -/
theorem C6_growth_model_shape_witness :
    growth_factor 0.3 ≤ growth_factor 0.5 ∧
    (0 ≤ growth_factor 0.7 ∧ growth_factor 0.7 ≤ 1) := by
  constructor
  · exact C6_growth_model_shape.1 0.3 0.5 (by norm_num) (by norm_num) (by norm_num)
  · exact C6_growth_model_shape.2.1 0.7 (by norm_num) (by norm_num)

/-- The monthly loop ignores the star-event list: the real per-month count is
bound and then unconditionally overwritten, so runs differing only in
`stargazers` coincide. -/
theorem monthlyLoop_stargazers_irrelevant (repo : RepoSnapshot)
    (g1 g2 : List (Option Datetime)) (current : Datetime) (rand : ℕ → ℚ) :
    ∀ n : ℕ, ∀ i cumS cumF : ℤ, ∀ k : ℕ,
      (12 * current.year + 12 + max 0 current.month - i).toNat ≤ n →
      monthlyLoop repo g1 current rand i cumS cumF k
        = monthlyLoop repo g2 current rand i cumS cumF k := by
  intro n
  induction n with
  | zero =>
    intro i cumS cumF k hn
    have h : ¬ dtLe (mkCurrentMonth i repo.created_at.tod) current = true := by
      intro h
      have := month_lt_of_dtLe i repo.created_at.tod current h
      omega
    rw [monthlyLoop, dif_neg h]
    conv_rhs => rw [monthlyLoop, dif_neg h]
  | succ n ih =>
    intro i cumS cumF k hn
    by_cases h : dtLe (mkCurrentMonth i repo.created_at.tod) current = true
    · have hlt := month_lt_of_dtLe i repo.created_at.tod current h
      have hrec : ∀ cS cF : ℤ, ∀ kk : ℕ,
          monthlyLoop repo g1 current rand (i + 1) cS cF kk
            = monthlyLoop repo g2 current rand (i + 1) cS cF kk :=
        fun cS cF kk => ih (i + 1) cS cF kk (by omega)
      rw [monthlyLoop, dif_pos h]
      conv_rhs => rw [monthlyLoop, dif_pos h]
      simp only [hrec]
    · rw [monthlyLoop, dif_neg h]
      conv_rhs => rw [monthlyLoop, dif_neg h]

/-- C2: The `stars_gained` values of the monthly history do not depend on the
star-event list: the per-month real count is computed but unconditionally
overwritten by the Growth-Model value, so two synthesis runs with the same
repository snapshot and randomness but different star-event lists produce
identical monthly histories. -/
theorem C2_history_independent_of_star_events (repo : RepoSnapshot)
    (g1 g2 : List (Option Datetime)) (contributors : List ContributorRecord)
    (current : Datetime) (rand : ℕ → ℚ) :
    (generate_real_analytics_data repo g1 contributors current rand).history
      = (generate_real_analytics_data repo g2 contributors current rand).history := by
  unfold generate_real_analytics_data monthlyHistory
  simp only
  rw [monthlyLoop_stargazers_irrelevant repo g1 g2 current rand _ _ _ _ _ (le_refl _)]

/-- Inclusive running sums starting from `s`. -/
def runningSumsFrom (s : ℤ) : List ℤ → List ℤ
  | [] => []
  | v :: t => (s + v) :: runningSumsFrom (s + v) t

/-- Inclusive running sums of a list: the spec's "sum of all same-metric daily
values from the window start through the current day". -/
def runningSums (l : List ℤ) : List ℤ := runningSumsFrom 0 l

theorem runningSumsFrom_append_single (s : ℤ) (vs : List ℤ) (v : ℤ) :
    runningSumsFrom s (vs ++ [v]) = runningSumsFrom s vs ++ [s + vs.sum + v] := by
  induction vs generalizing s with
  | nil => simp [runningSumsFrom]
  | cons a t ih =>
    simp only [List.cons_append, runningSumsFrom, List.sum_cons, ih, List.append_eq]
    have h : s + (a + t.sum) + v = s + a + t.sum + v := by ring
    rw [h]

theorem runningSums_append_single (vs : List ℤ) (v : ℤ) :
    runningSums (vs ++ [v]) = runningSums vs ++ [vs.sum + v] := by
  unfold runningSums
  rw [runningSumsFrom_append_single]
  norm_num

/-- Appending a record whose `cumulative` is the previous value sum plus its
own value preserves the running-sum invariant. -/
theorem dailyRecord_snoc_invariant (ds : List DailyRecord) (d v : ℤ)
    (h : ds.map (fun r => r.cumulative) = runningSums (ds.map (fun r => r.value))) :
    (ds ++ [DailyRecord.mk d v ((ds.map (fun r => r.value)).sum + v)]).map
        (fun r => r.cumulative)
      = runningSums ((ds ++ [DailyRecord.mk d v ((ds.map (fun r => r.value)).sum + v)]).map
        (fun r => r.value)) := by
  simp only [List.map_append, List.map_cons, List.map_nil]
  rw [h, runningSums_append_single]

/-- Every state update of the daily loop appends a record whose `cumulative`
is the previous value sum plus the new value, so the window-local running-sum
invariant is preserved. -/
theorem dailyLoop_cumulative_invariant (repo : RepoSnapshot) (gg : List (Option Datetime))
    (today : Datetime) (rand : ℕ → ℚ) :
    ∀ (idxs : List ℕ) (ds df : List DailyRecord) (k : ℕ),
      ds.map (fun r => r.cumulative) = runningSums (ds.map (fun r => r.value)) →
      df.map (fun r => r.cumulative) = runningSums (df.map (fun r => r.value)) →
      ((dailyLoop repo gg today rand idxs (ds, df, k)).1.map (fun r => r.cumulative)
          = runningSums ((dailyLoop repo gg today rand idxs (ds, df, k)).1.map (fun r => r.value)))
        ∧ ((dailyLoop repo gg today rand idxs (ds, df, k)).2.1.map (fun r => r.cumulative)
          = runningSums ((dailyLoop repo gg today rand idxs (ds, df, k)).2.1.map (fun r => r.value))) := by
  intro idxs
  induction idxs with
  | nil => intro ds df k h1 h2; exact ⟨h1, h2⟩
  | cons i rest ih =>
    intro ds df k h1 h2
    simp only [dailyLoop]
    apply ih
    · exact dailyRecord_snoc_invariant ds _ _ h1
    · exact dailyRecord_snoc_invariant df _ _ h2

/-- The daily loop appends one record per remaining index, dated
`today - i` days, to each series. -/
theorem dailyLoop_dates (repo : RepoSnapshot) (gg : List (Option Datetime))
    (today : Datetime) (rand : ℕ → ℚ) :
    ∀ (idxs : List ℕ) (ds df : List DailyRecord) (k : ℕ),
      ((dailyLoop repo gg today rand idxs (ds, df, k)).1.map (fun r => r.date)
          = ds.map (fun r => r.date) ++ idxs.map (fun i => dtDays today - (i : ℤ)))
        ∧ ((dailyLoop repo gg today rand idxs (ds, df, k)).2.1.map (fun r => r.date)
          = df.map (fun r => r.date) ++ idxs.map (fun i => dtDays today - (i : ℤ))) := by
  intro idxs
  induction idxs with
  | nil => intro ds df k; simp [dailyLoop]
  | cons i rest ih =>
    intro ds df k
    simp only [dailyLoop]
    constructor
    · rw [(ih _ _ _).1, List.map_append, List.map_cons]
      simp
    · rw [(ih _ _ _).2, List.map_append, List.map_cons]
      simp

theorem recomputeTotals_stars_consistent (rs rf : ℤ) (l : List MonthlyRecord) :
    (recomputeTotals rs rf l).map (fun r => r.total_stars_after)
      = (recomputeTotals rs rf l).map (fun r => r.total_stars_before + r.stars_gained) := by
  induction l generalizing rs rf with
  | nil => rfl
  | cons r t ih => simp [recomputeTotals, ih]

theorem recomputeTotals_forks_consistent (rs rf : ℤ) (l : List MonthlyRecord) :
    (recomputeTotals rs rf l).map (fun r => r.total_forks_after)
      = (recomputeTotals rs rf l).map (fun r => r.total_forks_before + r.forks_gained) := by
  induction l generalizing rs rf with
  | nil => rfl
  | cons r t ih => simp [recomputeTotals, ih]

theorem reconcileHistory_stars_consistent (a b : ℤ) (l : List MonthlyRecord) :
    (reconcileHistory a b l).map (fun r => r.total_stars_after)
      = (reconcileHistory a b l).map (fun r => r.total_stars_before + r.stars_gained) := by
  unfold reconcileHistory
  by_cases h : l.isEmpty
  · rw [if_pos h]
    rw [List.isEmpty_iff] at h
    subst h; rfl
  · rw [if_neg h]
    exact recomputeTotals_stars_consistent 0 0 _

theorem reconcileHistory_forks_consistent (a b : ℤ) (l : List MonthlyRecord) :
    (reconcileHistory a b l).map (fun r => r.total_forks_after)
      = (reconcileHistory a b l).map (fun r => r.total_forks_before + r.forks_gained) := by
  unfold reconcileHistory
  by_cases h : l.isEmpty
  · rw [if_pos h]
    rw [List.isEmpty_iff] at h
    subst h; rfl
  · rw [if_neg h]
    exact recomputeTotals_forks_consistent 0 0 _

/-- C3: In every returned monthly history,
`total_stars_after = total_stars_before + stars_gained` and
`total_forks_after = total_forks_before + forks_gained` record by record; and
in every returned daily sequence the running cumulative equals the sum of that
metric's daily values from the window start through the record. -/
theorem C3_cumulative_invariants (repo : RepoSnapshot)
    (stargazers : List (Option Datetime)) (contributors : List ContributorRecord)
    (current : Datetime) (rand : ℕ → ℚ) :
    ((generate_real_analytics_data repo stargazers contributors current rand).history.map
        (fun r => r.total_stars_after)
      = (generate_real_analytics_data repo stargazers contributors current rand).history.map
        (fun r => r.total_stars_before + r.stars_gained))
    ∧ ((generate_real_analytics_data repo stargazers contributors current rand).history.map
        (fun r => r.total_forks_after)
      = (generate_real_analytics_data repo stargazers contributors current rand).history.map
        (fun r => r.total_forks_before + r.forks_gained))
    ∧ ((generate_real_analytics_data repo stargazers contributors current rand).daily_stars.map
        (fun r => r.cumulative)
      = runningSums ((generate_real_analytics_data repo stargazers contributors current
          rand).daily_stars.map (fun r => r.value)))
    ∧ ((generate_real_analytics_data repo stargazers contributors current rand).daily_forks.map
        (fun r => r.cumulative)
      = runningSums ((generate_real_analytics_data repo stargazers contributors current
          rand).daily_forks.map (fun r => r.value))) := by
  unfold generate_real_analytics_data monthlyHistory generate_daily_analytics
  simp only
  refine ⟨reconcileHistory_stars_consistent _ _ _, reconcileHistory_forks_consistent _ _ _, ?_, ?_⟩
  · exact (dailyLoop_cumulative_invariant repo stargazers current rand _ [] [] _ rfl rfl).1
  · exact (dailyLoop_cumulative_invariant repo stargazers current rand _ [] [] _ rfl rfl).2

/-- C7: Every returned daily window (stars and forks) consists of exactly 31
records dated `today - 30, ..., today - 1, today` in order: dates strictly
increase by one day and end on the current day. -/
theorem C7_daily_window_shape (repo : RepoSnapshot)
    (stargazers : List (Option Datetime)) (contributors : List ContributorRecord)
    (current : Datetime) (rand : ℕ → ℚ) :
    ((generate_real_analytics_data repo stargazers contributors current rand).daily_stars.map
        (fun r => r.date)
      = (List.range 31).map (fun j : ℕ => dtDays current - 30 + (j : ℤ)))
    ∧ ((generate_real_analytics_data repo stargazers contributors current rand).daily_forks.map
        (fun r => r.date)
      = (List.range 31).map (fun j : ℕ => dtDays current - 30 + (j : ℤ))) := by
  have hmap : ((List.range 31).map (fun j => 30 - j)).map (fun i : ℕ => dtDays current - (i : ℤ))
      = (List.range 31).map (fun j : ℕ => dtDays current - 30 + (j : ℤ)) := by
    rw [List.map_map]
    apply List.map_congr_left
    intro j hj
    rw [List.mem_range] at hj
    have hle : j ≤ 30 := by omega
    simp only [Function.comp]
    rw [Nat.cast_sub hle]
    push_cast
    ring
  unfold generate_real_analytics_data generate_daily_analytics
  simp only
  constructor
  · rw [(dailyLoop_dates repo stargazers current rand _ [] [] _).1]
    simp only [List.map_nil, List.nil_append]
    exact hmap
  · rw [(dailyLoop_dates repo stargazers current rand _ [] [] _).2]
    simp only [List.map_nil, List.nil_append]
    exact hmap

instance : IsTotal CountryEntry (fun a b => b.value ≤ a.value) :=
  ⟨fun a b => le_total b.value a.value⟩

instance : IsTrans CountryEntry (fun a b => b.value ≤ a.value) :=
  ⟨fun _ _ _ h1 h2 => le_trans h2 h1⟩

theorem sortCountryValues_sorted (l : List CountryEntry) :
    List.Sorted (fun a b => b.value ≤ a.value) (sortCountryValues l) :=
  List.sorted_insertionSort _ l

theorem mem_sortCountryValues {e : CountryEntry} {l : List CountryEntry} :
    e ∈ sortCountryValues l ↔ e ∈ l :=
  List.mem_insertionSort _

/-- Generic fact about the country-list building folds: every element of the
result is an element of the accumulator or has the positive value the guard
requires. -/
theorem foldl_countryStep_pos (t : ℤ) (val : String × ℤ → ℤ) :
    ∀ (d : List (String × ℤ)) (acc : List CountryEntry),
      (∀ e ∈ acc, 0 < e.value) →
      ∀ e ∈ d.foldl (fun acc p =>
          if 0 < t then
            if 0 < val p then acc ++ [{ country := p.1, value := val p }] else acc
          else acc) acc, 0 < e.value := by
  intro d
  induction d with
  | nil => intro acc hacc e he; exact hacc e he
  | cons p rest ih =>
    intro acc hacc e he
    refine ih _ ?_ e he
    intro x hx
    beta_reduce at hx
    by_cases h1 : 0 < t
    · rw [if_pos h1] at hx
      by_cases h2 : 0 < val p
      · rw [if_pos h2] at hx
        rcases List.mem_append.mp hx with hx | hx
        · exact hacc x hx
        · rcases List.mem_singleton.mp hx with rfl
          exact h2
      · rw [if_neg h2] at hx
        exact hacc x hx
    · rw [if_neg h1] at hx
      exact hacc x hx

theorem countryStarsRaw_pos (d : List (String × ℤ)) (stars : ℤ) :
    ∀ e ∈ countryStarsRaw d stars, 0 < e.value := by
  unfold countryStarsRaw
  exact foldl_countryStep_pos _ _ d [] (by intro e h; cases h)

theorem countryForksRaw_pos (d : List (String × ℤ)) (forks : ℤ) :
    ∀ e ∈ countryForksRaw d forks, 0 < e.value := by
  unfold countryForksRaw
  exact foldl_countryStep_pos _ _ d [] (by intro e h; cases h)

theorem countryClonesRaw_pos (d : List (String × ℤ)) :
    ∀ e ∈ countryClonesRaw d, 0 < e.value := by
  unfold countryClonesRaw
  exact foldl_countryStep_pos _ _ d [] (by intro e h; cases h)

/-- The well-formedness the spec requires of each country distribution list:
at most 8 entries, sorted descending by value, no zero-value entries. -/
def countryListOk (l : List CountryEntry) : Prop :=
  l.length ≤ 8 ∧ List.Sorted (fun a b => b.value ≤ a.value) l ∧ ∀ e ∈ l, 0 < e.value

theorem countryListOk_of_raw (l : List CountryEntry)
    (h : ∀ e ∈ l, 0 < e.value) : countryListOk ((sortCountryValues l).take 8) := by
  refine ⟨?_, ?_, ?_⟩
  · rw [List.length_take]
    exact min_le_left _ _
  · exact (sortCountryValues_sorted l).sublist (List.take_sublist _ _)
  · intro e he
    exact h e (mem_sortCountryValues.mp (List.mem_of_mem_take he))

/-- C9: Each per-metric country distribution list (stars, forks, clones) in
the output has at most 8 entries, is sorted descending by value, and contains
no zero-value entries. -/
theorem C9_country_distribution_shape (repo : RepoSnapshot)
    (stargazers : List (Option Datetime)) (contributors : List ContributorRecord)
    (current : Datetime) (rand : ℕ → ℚ) :
    countryListOk (generate_real_analytics_data repo stargazers contributors
        current rand).countries_stars
    ∧ countryListOk (generate_real_analytics_data repo stargazers contributors
        current rand).countries_forks
    ∧ countryListOk (generate_real_analytics_data repo stargazers contributors
        current rand).countries_clones := by
  unfold generate_real_analytics_data
  simp only
  exact ⟨countryListOk_of_raw _ (countryStarsRaw_pos _ _),
         countryListOk_of_raw _ (countryForksRaw_pos _ _),
         countryListOk_of_raw _ (countryClonesRaw_pos _)⟩

/-- The concrete classifier input of the claim: a repository whose description
is "A React component library". -/
def reactLibMeta : RepoMeta :=
  { name := "react-components", description := some "A React component library",
    fork := false, language := none }

/-- C8 counterexample: on the description "A React component library" the
classifier does NOT return category "Unknown" — the description contains the
keyword "component", so the category branch fires and yields "Frontend".
The claim's conjunction (framework React/Next.js, type Library, category
Unknown) is therefore false at this input. -/
theorem C8_counterexample :
    ¬ ((classify_repository reactLibMeta []).framework = "React/Next.js"
        ∧ (classify_repository reactLibMeta []).type = "Library"
        ∧ (classify_repository reactLibMeta []).category = "Unknown") := by
  decide

/-- C8 (amended): the classifier is a pure function — equal metadata and
languages inputs give equal classification records — and on the description
"A React component library" it returns framework "React/Next.js", type
"Library" (keyword "library") and category "Frontend" (keyword "component"). -/
theorem C8_classifier_deterministic_and_react_lib :
    (∀ (rd1 rd2 : RepoMeta) (l1 l2 : List (String × ℤ)), rd1 = rd2 → l1 = l2 →
        classify_repository rd1 l1 = classify_repository rd2 l2)
    ∧ classify_repository reactLibMeta []
      = { primary_language := "Unknown", type := "Library",
          framework := "React/Next.js", category := "Frontend" } := by
  constructor
  · intro rd1 rd2 l1 l2 h1 h2
    rw [h1, h2]
  · decide

/-- Witness for C8's quantified purity part at a concrete input. -/
theorem C8_classifier_deterministic_witness :
    classify_repository reactLibMeta [] = classify_repository reactLibMeta [] :=
  C8_classifier_deterministic_and_react_lib.1 reactLibMeta reactLibMeta [] [] rfl rfl

@[simp] theorem pyIntQ_zero : pyIntQ 0 = 0 := by
  simp [pyIntQ]

/-- With no positive repository age (and too few star events to use real
counts), every daily value is zero: the zero-result branch of the
`repo_age_days > 0` guard propagates. -/
theorem dailyLoop_zero_values (repo : RepoSnapshot) (gg : List (Option Datetime))
    (today : Datetime) (rand : ℕ → ℚ)
    (hage : timedeltaDays repo.created_at today ≤ 0) (hlen : gg.length < 10) :
    ∀ (idxs : List ℕ) (ds df : List DailyRecord) (k : ℕ),
      ((dailyLoop repo gg today rand idxs (ds, df, k)).1.map (fun r => r.value)
          = ds.map (fun r => r.value) ++ List.replicate idxs.length 0)
        ∧ ((dailyLoop repo gg today rand idxs (ds, df, k)).2.1.map (fun r => r.value)
          = df.map (fun r => r.value) ++ List.replicate idxs.length 0) := by
  have hc : ∀ b : Bool, (b || decide (gg.length < 10)) = true := by
    intro b; simp [hlen]
  have hage' : ¬ (0 < timedeltaDays repo.created_at today) := not_lt.mpr hage
  intro idxs
  induction idxs with
  | nil => intro ds df k; simp [dailyLoop]
  | cons i rest ih =>
    intro ds df k
    simp only [dailyLoop, hc, if_true, if_neg hage']
    constructor
    · rw [(ih _ _ _).1]
      simp [List.replicate_succ]
    · rw [(ih _ _ _).2]
      simp [List.replicate_succ]

/-- A country-building fold appends nothing when the total weight is not
positive: the `total_contributions > 0` guard skips every entry. -/
theorem foldl_countryStep_nonpos (t : ℤ) (val : String × ℤ → ℤ) (h : ¬ 0 < t) :
    ∀ (l : List (String × ℤ)) (acc : List CountryEntry),
      l.foldl (fun acc p =>
          if 0 < t then
            if 0 < val p then acc ++ [{ country := p.1, value := val p }] else acc
          else acc) acc = acc := by
  intro l
  induction l with
  | nil => intro acc; rfl
  | cons p rest ih =>
    intro acc
    rw [List.foldl_cons]
    rw [if_neg h]
    exact ih acc

theorem countryStarsRaw_empty_of_nonpos (d : List (String × ℤ)) (s : ℤ)
    (h : totalContributions d ≤ 0) : countryStarsRaw d s = [] := by
  unfold countryStarsRaw
  exact foldl_countryStep_nonpos _ _ (not_lt.mpr h) d []

theorem countryForksRaw_empty_of_nonpos (d : List (String × ℤ)) (f : ℤ)
    (h : totalContributions d ≤ 0) : countryForksRaw d f = [] := by
  unfold countryForksRaw
  exact foldl_countryStep_nonpos _ _ (not_lt.mpr h) d []

theorem countryClonesRaw_empty_of_nonpos (d : List (String × ℤ))
    (h : totalContributions d ≤ 0) : countryClonesRaw d = [] := by
  unfold countryClonesRaw
  exact foldl_countryStep_nonpos _ _ (not_lt.mpr h) d []

/-- C10: Every ratio of the synthesis engine has a guarded denominator:
`total_months` is floored at 1 (so the progress denominator is positive); the
fork ratio divides by `max 1 stars`, a positive denominator, and the division
is genuine (ratio times denominator recovers the numerator); when the
repository age in days is not positive, the daily model takes the zero-result
branch, so every daily star and fork value is 0 instead of dividing by the
age; and when the total contribution weight is not positive, no per-country
ratio is computed and the raw country lists are empty. -/
theorem C10_division_guards :
    (∀ created current : Datetime, 0 < total_months created current)
    ∧ (∀ f s : ℤ, (0 : ℤ) < max 1 s
        ∧ fork_ratio f s * ((max 1 s : ℤ) : ℚ) = (f : ℚ))
    ∧ (∀ (repo : RepoSnapshot) (gg : List (Option Datetime)) (today : Datetime)
        (rand : ℕ → ℚ) (k0 : ℕ),
        timedeltaDays repo.created_at today ≤ 0 → gg.length < 10 →
        ((generate_daily_analytics repo gg today rand k0).1.map (fun r => r.value)
            = List.replicate 31 0
          ∧ (generate_daily_analytics repo gg today rand k0).2.1.map (fun r => r.value)
            = List.replicate 31 0))
    ∧ (∀ d : List (String × ℤ), totalContributions d ≤ 0 → ∀ s f : ℤ,
        countryStarsRaw d s = [] ∧ countryForksRaw d f = [] ∧ countryClonesRaw d = []) := by
  refine ⟨?_, ?_, ?_, ?_⟩
  · intro created current
    exact lt_of_lt_of_le one_pos (le_max_left _ _)
  · intro f s
    refine ⟨lt_of_lt_of_le one_pos (le_max_left _ _), ?_⟩
    unfold fork_ratio
    rw [div_mul_cancel₀]
    intro hc
    have : (0 : ℤ) < max 1 s := lt_of_lt_of_le one_pos (le_max_left _ _)
    rw [show ((0 : ℚ)) = ((0 : ℤ) : ℚ) by norm_num] at hc
    have := Int.cast_injective (α := ℚ) hc
    omega
  · intro repo gg today rand k0 hage hlen
    unfold generate_daily_analytics
    have h := dailyLoop_zero_values repo gg today rand hage hlen
      ((List.range 31).map (fun j => 30 - j)) [] [] k0
    simpa using h
  · intro d h s f
    exact ⟨countryStarsRaw_empty_of_nonpos d s h, countryForksRaw_empty_of_nonpos d f h,
           countryClonesRaw_empty_of_nonpos d h⟩

/-- Witness for C10 at concrete inputs: a repository created "now" (age 0)
with an empty star-event list, and an empty country distribution. -/
theorem C10_division_guards_witness :
    ((generate_daily_analytics
        { created_at := { year := 2023, month := 5, day := 4, tod := 0 },
          stargazers_count := 7, forks_count := 2 }
        [] { year := 2023, month := 5, day := 4, tod := 0 } (fun _ => 1/2) 0).1.map
          (fun r => r.value) = List.replicate 31 0)
    ∧ countryStarsRaw [] 7 = [] := by
  constructor
  · exact (C10_division_guards.2.2.1
      { created_at := { year := 2023, month := 5, day := 4, tod := 0 },
        stargazers_count := 7, forks_count := 2 }
      [] { year := 2023, month := 5, day := 4, tod := 0 } (fun _ => 1/2) 0
      (by decide) (by decide)).1
  · exact (C10_division_guards.2.2.2 [] (by decide) 7 2).1

/-- Propositional characterization of the lexicographic `datetime` order. -/
theorem dtLe_eq_true_iff (a b : Datetime) :
    dtLe a b = true ↔
      (a.year < b.year ∨ (a.year = b.year ∧ (a.month < b.month ∨ (a.month = b.month ∧
        (a.day < b.day ∨ (a.day = b.day ∧ a.tod ≤ b.tod)))))) := by
  unfold dtLe
  split_ifs with h1 h2 h3 <;> simp only [decide_eq_true_eq] <;> omega

/-- The largest month index whose loop month (first day, creation's time of
day) is still `<=` the current timestamp: the current month itself, except
when the current timestamp falls on day 1 strictly before the creation
time-of-day, in which case the previous month. -/
def monthBound (tod : ℤ) (cur : Datetime) : ℤ :=
  if 1 < cur.day ∨ (cur.day = 1 ∧ tod ≤ cur.tod)
  then monthIdx cur.year cur.month else monthIdx cur.year cur.month - 1

/-- For a valid current timestamp the monthly loop guard holds exactly for the
month indices up to `monthBound`. -/
theorem dtLe_mkCurrentMonth_iff (tod : ℤ) (cur : Datetime)
    (hm1 : 1 ≤ cur.month) (hm2 : cur.month ≤ 12) (hd : 1 ≤ cur.day) (i : ℤ) :
    (dtLe (mkCurrentMonth i tod) cur = true) ↔ i ≤ monthBound tod cur := by
  rw [dtLe_eq_true_iff]
  have h1 := Int.fdiv_add_fmod i 12
  have h2 := fmod12_bounds i
  simp only [mkCurrentMonth, cmY, cmM, monthBound, monthIdx]
  split_ifs with h <;> omega

/-- The month-index sequence of the records built by the monthly loop:
consecutive indices from the start index through `monthBound`. -/
theorem monthlyLoop_months (repo : RepoSnapshot) (stargazers : List (Option Datetime))
    (current : Datetime) (rand : ℕ → ℚ) (B : ℤ)
    (hiff : ∀ j : ℤ, (dtLe (mkCurrentMonth j repo.created_at.tod) current = true) ↔ j ≤ B) :
    ∀ n : ℕ, ∀ i cumS cumF : ℤ, ∀ k : ℕ,
      (12 * current.year + 12 + max 0 current.month - i).toNat ≤ n →
      (monthlyLoop repo stargazers current rand i cumS cumF k).1.map
          (fun r => monthIdx r.year r.month)
        = (List.range (B + 1 - i).toNat).map (fun j : ℕ => i + (j : ℤ)) := by
  intro n
  induction n with
  | zero =>
    intro i cumS cumF k hn
    have h : ¬ dtLe (mkCurrentMonth i repo.created_at.tod) current = true := by
      intro h
      have := month_lt_of_dtLe i repo.created_at.tod current h
      omega
    have hB : ¬ i ≤ B := fun hc => h ((hiff i).mpr hc)
    rw [monthlyLoop, dif_neg h]
    rw [show (B + 1 - i).toNat = 0 by omega]
    rfl
  | succ n ih =>
    intro i cumS cumF k hn
    by_cases h : dtLe (mkCurrentMonth i repo.created_at.tod) current = true
    · have hiB : i ≤ B := (hiff i).mp h
      have hlt := month_lt_of_dtLe i repo.created_at.tod current h
      rw [monthlyLoop, dif_pos h]
      simp only [List.map_cons]
      rw [cmY_cmM_monthIdx]
      rw [ih (i + 1) _ _ _ (by omega)]
      rw [show (B + 1 - i).toNat = (B + 1 - (i + 1)).toNat + 1 by omega]
      rw [List.range_succ_eq_map, List.map_cons, List.map_map]
      congr 1
      · norm_num
      · apply List.map_congr_left
        intro j hj
        simp only [Function.comp]
        push_cast
        ring
    · have hB : ¬ i ≤ B := fun hc => h ((hiff i).mpr hc)
      rw [monthlyLoop, dif_neg h]
      rw [show (B + 1 - i).toNat = 0 by omega]
      rfl

theorem updateFirstN_map_eq {α : Type} (f : MonthlyRecord → α)
    (upd : MonthlyRecord → MonthlyRecord) (hf : ∀ r, f (upd r) = f r) :
    ∀ (n : ℕ) (l : List MonthlyRecord), (updateFirstN upd n l).map f = l.map f := by
  intro n
  induction n with
  | zero => intro l; rfl
  | succ n ih =>
    intro l
    cases l with
    | nil => rfl
    | cons r t => simp [updateFirstN, hf, ih]

theorem adjustLastStars_map_months (per : ℤ) (n : ℕ) (l : List MonthlyRecord) :
    (adjustLastStars per n l).map (fun r => monthIdx r.year r.month)
      = l.map (fun r => monthIdx r.year r.month) := by
  unfold adjustLastStars
  rw [List.map_reverse, updateFirstN_map_eq (fun r => monthIdx r.year r.month)
    (fun r => { r with stars_gained := max 0 (r.stars_gained + per) }) (fun r => rfl),
    List.map_reverse, List.reverse_reverse]

theorem adjustLastForks_map_months (per : ℤ) (n : ℕ) (l : List MonthlyRecord) :
    (adjustLastForks per n l).map (fun r => monthIdx r.year r.month)
      = l.map (fun r => monthIdx r.year r.month) := by
  unfold adjustLastForks
  rw [List.map_reverse, updateFirstN_map_eq (fun r => monthIdx r.year r.month)
    (fun r => { r with forks_gained := max 0 (r.forks_gained + per) }) (fun r => rfl),
    List.map_reverse, List.reverse_reverse]

theorem recomputeTotals_map_months (rs rf : ℤ) (l : List MonthlyRecord) :
    (recomputeTotals rs rf l).map (fun r => monthIdx r.year r.month)
      = l.map (fun r => monthIdx r.year r.month) := by
  induction l generalizing rs rf with
  | nil => rfl
  | cons r t ih => simp [recomputeTotals, ih]

theorem reconcileHistory_map_months (a b : ℤ) (l : List MonthlyRecord) :
    (reconcileHistory a b l).map (fun r => monthIdx r.year r.month)
      = l.map (fun r => monthIdx r.year r.month) := by
  unfold reconcileHistory
  by_cases h : l.isEmpty
  · rw [if_pos h]
  · rw [if_neg h]
    rw [recomputeTotals_map_months]
    split_ifs <;>
      simp only [adjustLastForks_map_months, adjustLastStars_map_months]

/-- The month-index sequence of a full synthesized history: consecutive
months from the creation month through `monthBound` (for a valid current
timestamp). -/
theorem monthlyHistory_months (repo : RepoSnapshot) (stargazers : List (Option Datetime))
    (current : Datetime) (rand : ℕ → ℚ)
    (hm1 : 1 ≤ current.month) (hm2 : current.month ≤ 12) (hd : 1 ≤ current.day) :
    (monthlyHistory repo stargazers current rand).1.map (fun r => monthIdx r.year r.month)
      = (List.range (monthBound repo.created_at.tod current + 1
            - monthIdx repo.created_at.year repo.created_at.month).toNat).map
          (fun j : ℕ => monthIdx repo.created_at.year repo.created_at.month + (j : ℤ)) := by
  unfold monthlyHistory
  simp only
  rw [reconcileHistory_map_months]
  exact monthlyLoop_months repo stargazers current rand _
    (dtLe_mkCurrentMonth_iff _ _ hm1 hm2 hd) _ _ _ _ _ (le_refl _)

/-- C4 (amended): for a valid creation timestamp not later than the valid
current timestamp, and provided the current timestamp is not on day 1 of its
month strictly before the creation time-of-day, the monthly history has one
record per calendar month from the creation month to the current month
inclusive, in chronological order — in particular its length is the number of
those months. -/
theorem C4_monthly_history_months (repo : RepoSnapshot)
    (stargazers : List (Option Datetime)) (contributors : List ContributorRecord)
    (current : Datetime) (rand : ℕ → ℚ)
    (hm1 : 1 ≤ current.month) (hm2 : current.month ≤ 12) (hd : 1 ≤ current.day)
    (hc1 : 1 ≤ repo.created_at.month) (hc2 : repo.created_at.month ≤ 12)
    (hle : dtLe repo.created_at current = true)
    (hday : 2 ≤ current.day ∨ (current.day = 1 ∧ repo.created_at.tod ≤ current.tod)) :
    ((generate_real_analytics_data repo stargazers contributors current rand).history.map
        (fun r => monthIdx r.year r.month)
      = (List.range ((monthIdx current.year current.month
            - monthIdx repo.created_at.year repo.created_at.month).toNat + 1)).map
          (fun j : ℕ => monthIdx repo.created_at.year repo.created_at.month + (j : ℤ)))
    ∧ (generate_real_analytics_data repo stargazers contributors current rand).history.length
      = (monthIdx current.year current.month
          - monthIdx repo.created_at.year repo.created_at.month).toNat + 1 := by
  have hB : monthBound repo.created_at.tod current = monthIdx current.year current.month := by
    unfold monthBound
    rw [if_pos (by omega)]
  have hidx : monthIdx repo.created_at.year repo.created_at.month
      ≤ monthIdx current.year current.month := by
    rw [dtLe_eq_true_iff] at hle
    simp only [monthIdx]
    omega
  have hhist : (generate_real_analytics_data repo stargazers contributors current rand).history
      = (monthlyHistory repo stargazers current rand).1 := rfl
  have hmm := monthlyHistory_months repo stargazers current rand hm1 hm2 hd
  rw [hB] at hmm
  rw [show (monthIdx current.year current.month + 1
      - monthIdx repo.created_at.year repo.created_at.month).toNat
    = (monthIdx current.year current.month
      - monthIdx repo.created_at.year repo.created_at.month).toNat + 1 by omega] at hmm
  constructor
  · rw [hhist]; exact hmm
  · rw [hhist]
    have := congrArg List.length hmm
    simpa using this

/-- Witness for C4 at the spec's own example: created 2023-01-15, current
2023-04-10 (noon time-of-day on both) gives exactly 4 records, one per month
from January through April 2023. -/
theorem C4_monthly_history_months_witness :
    (generate_real_analytics_data
        { created_at := { year := 2023, month := 1, day := 15, tod := 0 },
          stargazers_count := 100, forks_count := 10 }
        [] [] { year := 2023, month := 4, day := 10, tod := 0 } (fun _ => 1/2)).history.length
      = 4 := by
  have h := (C4_monthly_history_months
    { created_at := { year := 2023, month := 1, day := 15, tod := 0 },
      stargazers_count := 100, forks_count := 10 }
    [] [] { year := 2023, month := 4, day := 10, tod := 0 } (fun _ => 1/2)
    (by norm_num) (by norm_num) (by norm_num) (by norm_num) (by norm_num)
    (by decide) (by norm_num)).2
  rw [h]
  decide

/-- C4 counterexample input: the current timestamp is 05:00 on the first of
April while the repository was created at 10:00 (on some day): the loop month
for April, `2023-04-01 10:00`, exceeds the current timestamp `2023-04-01
05:00`, so April is dropped. -/
def repoC4 : RepoSnapshot :=
  { created_at := { year := 2023, month := 1, day := 15, tod := 36000 },
    stargazers_count := 100, forks_count := 10 }

/-- The current timestamp of the C4 counterexample. -/
def curC4 : Datetime := { year := 2023, month := 4, day := 1, tod := 18000 }

/-- C4 counterexample: with creation 2023-01-15 (time-of-day 10:00) and
current timestamp 2023-04-01 (time-of-day 05:00), the span January..April has
4 calendar months but the history has only 3 records (April is dropped), so
the claimed length formula fails. -/
theorem C4_counterexample :
    (generate_real_analytics_data repoC4 [] [] curC4 (fun _ => 1/2)).history.length = 3
    ∧ (monthIdx curC4.year curC4.month
        - monthIdx repoC4.created_at.year repoC4.created_at.month).toNat + 1 = 4 := by
  constructor
  · have hhist : (generate_real_analytics_data repoC4 [] [] curC4 (fun _ => 1/2)).history
        = (monthlyHistory repoC4 [] curC4 (fun _ => 1/2)).1 := rfl
    have hmm := monthlyHistory_months repoC4 [] curC4 (fun _ => 1/2)
      (by decide) (by decide) (by decide)
    rw [hhist]
    have := congrArg List.length hmm
    simp only [List.length_map, List.length_range] at this
    rw [this]
    decide
  · decide

theorem recomputeTotals_map_stars_gained (rs rf : ℤ) (l : List MonthlyRecord) :
    (recomputeTotals rs rf l).map (fun r => r.stars_gained)
      = l.map (fun r => r.stars_gained) := by
  induction l generalizing rs rf with
  | nil => rfl
  | cons r t ih => simp [recomputeTotals, ih]

theorem recomputeTotals_map_forks_gained (rs rf : ℤ) (l : List MonthlyRecord) :
    (recomputeTotals rs rf l).map (fun r => r.forks_gained)
      = l.map (fun r => r.forks_gained) := by
  induction l generalizing rs rf with
  | nil => rfl
  | cons r t ih => simp [recomputeTotals, ih]

/-- The re-walk writes exactly the running sums of `stars_gained` into
`total_stars_after`. -/
theorem recomputeTotals_stars_after_runningSums (rs rf : ℤ) (l : List MonthlyRecord) :
    (recomputeTotals rs rf l).map (fun r => r.total_stars_after)
      = runningSumsFrom rs (l.map (fun r => r.stars_gained)) := by
  induction l generalizing rs rf with
  | nil => rfl
  | cons r t ih => simp [recomputeTotals, runningSumsFrom, ih]

theorem recomputeTotals_forks_after_runningSums (rs rf : ℤ) (l : List MonthlyRecord) :
    (recomputeTotals rs rf l).map (fun r => r.total_forks_after)
      = runningSumsFrom rf (l.map (fun r => r.forks_gained)) := by
  induction l generalizing rs rf with
  | nil => rfl
  | cons r t ih => simp [recomputeTotals, runningSumsFrom, ih]

/-- After reconciliation the cumulative-after fields are exactly the running
sums of the (possibly adjusted) gains. -/
theorem reconcileHistory_after_runningSums (a b : ℤ) (l : List MonthlyRecord) :
    ((reconcileHistory a b l).map (fun r => r.total_stars_after)
        = runningSums ((reconcileHistory a b l).map (fun r => r.stars_gained)))
      ∧ ((reconcileHistory a b l).map (fun r => r.total_forks_after)
        = runningSums ((reconcileHistory a b l).map (fun r => r.forks_gained))) := by
  unfold reconcileHistory
  by_cases h : l.isEmpty
  · rw [if_pos h]
    rw [List.isEmpty_iff] at h
    subst h
    exact ⟨rfl, rfl⟩
  · rw [if_neg h]
    constructor
    · rw [recomputeTotals_stars_after_runningSums, recomputeTotals_map_stars_gained]
      rfl
    · rw [recomputeTotals_forks_after_runningSums, recomputeTotals_map_forks_gained]
      rfl

/-- C1 (amended): the cumulative-after fields of the returned history are the
running sums of the gains, so the last record's `total_stars_after`
(`total_forks_after`) equals the sum of `stars_gained` (`forks_gained`) over
the whole history — internal consistency.  The sum itself, however, need not
equal the authoritative total (see the counterexample). -/
theorem C1_history_after_eq_runningSums (repo : RepoSnapshot)
    (stargazers : List (Option Datetime)) (contributors : List ContributorRecord)
    (current : Datetime) (rand : ℕ → ℚ) :
    ((generate_real_analytics_data repo stargazers contributors current rand).history.map
        (fun r => r.total_stars_after)
      = runningSums ((generate_real_analytics_data repo stargazers contributors current
          rand).history.map (fun r => r.stars_gained)))
    ∧ ((generate_real_analytics_data repo stargazers contributors current rand).history.map
        (fun r => r.total_forks_after)
      = runningSums ((generate_real_analytics_data repo stargazers contributors current
          rand).history.map (fun r => r.forks_gained))) := by
  have hhist : (generate_real_analytics_data repo stargazers contributors current rand).history
      = (monthlyHistory repo stargazers current rand).1 := rfl
  rw [hhist]
  unfold monthlyHistory
  simp only
  exact reconcileHistory_after_runningSums _ _ _

/-- C1 counterexample repository: created 2022-12-15, current total 100 stars
and 0 forks. -/
def repoC1 : RepoSnapshot :=
  { created_at := { year := 2022, month := 12, day := 15, tod := 0 },
    stargazers_count := 100, forks_count := 0 }

/-- C1 counterexample current timestamp: 2023-01-10. -/
def curC1 : Datetime := { year := 2023, month := 1, day := 10, tod := 0 }

/-- C1 counterexample random stream: constantly 0.53, so the variation step
adds `int(100 * 0.018) = 1` star in the final month. -/
def randC1 : ℕ → ℚ := fun _ => 53 / 100

theorem C1_loop2 : monthlyLoop repoC1 [] curC1 randC1 24277 101 0 1 = ([], 1) := by
  rw [monthlyLoop, dif_neg (by decide)]

theorem C1_loop1 : monthlyLoop repoC1 [] curC1 randC1 24276 0 0 0
    = ([{ year := 2023, month := 1, stars_gained := 101, forks_gained := 0,
          total_stars_before := 0, total_stars_after := 101,
          total_forks_before := 0, total_forks_after := 0 }], 1) := by
  rw [monthlyLoop, dif_pos (by decide)]
  simp only [show months_since_creation repoC1.created_at 24276 = 1 from by decide,
    show total_months repoC1.created_at curC1 = 1 from by decide,
    show repoC1.stargazers_count = 100 from rfl,
    target_cumulative_one_one]
  norm_num [randC1, cmY, cmM, pyIntQ, fork_ratio,
    show Int.fmod 24276 12 = 0 from by decide,
    show Int.fdiv 24276 12 = 2023 from by decide,
    show repoC1.forks_count = 0 from rfl, C1_loop2]

theorem C1_loop0 : monthlyLoop repoC1 [] curC1 randC1 24275 0 0 0
    = ([{ year := 2022, month := 12, stars_gained := 0, forks_gained := 0,
          total_stars_before := 0, total_stars_after := 0,
          total_forks_before := 0, total_forks_after := 0 },
        { year := 2023, month := 1, stars_gained := 101, forks_gained := 0,
          total_stars_before := 0, total_stars_after := 101,
          total_forks_before := 0, total_forks_after := 0 }], 1) := by
  rw [monthlyLoop, dif_pos (by decide)]
  simp only [show months_since_creation repoC1.created_at 24275 = 0 from by decide,
    show total_months repoC1.created_at curC1 = 1 from by decide,
    show repoC1.stargazers_count = 100 from rfl,
    target_cumulative_msc_zero]
  norm_num [randC1, cmY, cmM, pyIntQ, fork_ratio,
    show Int.fmod 24275 12 = 11 from by decide,
    show Int.fdiv 24275 12 = 2022 from by decide,
    show repoC1.forks_count = 0 from rfl, C1_loop1]

/-- The full synthesized monthly history of the C1 counterexample input: the
simulated month gains are 0 (December, progress 0) and 101 (January, progress
1, variation +1), the discrepancy to the authoritative 100 is only 1 (within
5%), so no reconciliation adjustment is applied. -/
theorem C1_history_run :
    (generate_real_analytics_data repoC1 [] [] curC1 randC1).history
      = [{ year := 2022, month := 12, stars_gained := 0, forks_gained := 0,
           total_stars_before := 0, total_stars_after := 0,
           total_forks_before := 0, total_forks_after := 0 },
         { year := 2023, month := 1, stars_gained := 101, forks_gained := 0,
           total_stars_before := 0, total_stars_after := 101,
           total_forks_before := 0, total_forks_after := 0 }] := by
  have hhist : (generate_real_analytics_data repoC1 [] [] curC1 randC1).history
      = (monthlyHistory repoC1 [] curC1 randC1).1 := rfl
  rw [hhist]
  unfold monthlyHistory
  simp only [show monthIdx repoC1.created_at.year repoC1.created_at.month = 24275 from by decide,
    C1_loop0]
  unfold reconcileHistory
  norm_num [sumStarsGained, sumForksGained, show repoC1.stargazers_count = 100 from rfl,
    show repoC1.forks_count = 0 from rfl, recomputeTotals]

/-- C1 counterexample: a repository with authoritative total 100 > 0 whose
synthesized history gains sum to 101, not 100, and whose last record's
`total_stars_after` is 101, not the authoritative total: the discrepancy
(1 star) is within the 5% tolerance, so reconciliation does not adjust it. -/
theorem C1_counterexample :
    (0 : ℤ) < repoC1.stargazers_count
    ∧ sumStarsGained (generate_real_analytics_data repoC1 [] [] curC1 randC1).history
        ≠ repoC1.stargazers_count
    ∧ (generate_real_analytics_data repoC1 [] [] curC1 randC1).history.getLast?.map
        (fun r => r.total_stars_after) ≠ some repoC1.stargazers_count := by
  refine ⟨by decide, ?_, ?_⟩
  · rw [C1_history_run]; decide
  · rw [C1_history_run]; decide

theorem adjustLastForks_map_stars_gained (per : ℤ) (n : ℕ) (l : List MonthlyRecord) :
    (adjustLastForks per n l).map (fun r => r.stars_gained)
      = l.map (fun r => r.stars_gained) := by
  unfold adjustLastForks
  rw [List.map_reverse, updateFirstN_map_eq (fun r => r.stars_gained)
    (fun r => { r with forks_gained := max 0 (r.forks_gained + per) }) (fun r => rfl),
    List.map_reverse, List.reverse_reverse]

/-- Reconciling a single all-zero record against authoritative totals
`S >= 0`, `F`: the star adjustment (when triggered, i.e. when `S > 0`) puts
the whole of `S` into the single record, and the recomputation makes its
`total_stars_after` equal to `S`; when not triggered, `S = 0` and the record
keeps 0.  Either way the cumulative-after list is `[S]`. -/
theorem reconcileHistory_single_zero (S F y m : ℤ) (hS : 0 ≤ S) :
    (reconcileHistory S F
        [{ year := y, month := m, stars_gained := 0, forks_gained := 0,
           total_stars_before := 0, total_stars_after := 0,
           total_forks_before := 0, total_forks_after := 0 }]).map
        (fun r => r.total_stars_after) = [S] := by
  unfold reconcileHistory
  rw [if_neg (by simp)]
  simp only [sumStarsGained, sumForksGained, List.map_cons, List.map_nil,
    List.sum_cons, List.sum_nil, List.length_cons, List.length_nil]
  rw [recomputeTotals_stars_after_runningSums]
  have hstar : List.map (fun r => r.stars_gained)
      (if ((|S - (0 + 0)| : ℤ) : ℚ) > (S : ℚ) * (5 / 100) then
        adjustLastStars ((S - (0 + 0)).fdiv ((3 ⊓ (0 + 1) : ℕ) : ℤ)) (3 ⊓ (0 + 1))
          [{ year := y, month := m, stars_gained := 0, forks_gained := 0,
             total_stars_before := 0, total_stars_after := 0,
             total_forks_before := 0, total_forks_after := 0 }]
      else
        [{ year := y, month := m, stars_gained := 0, forks_gained := 0,
           total_stars_before := 0, total_stars_after := 0,
           total_forks_before := 0, total_forks_after := 0 }]) = [S] := by
    by_cases hs : ((|S - (0 + 0)| : ℤ) : ℚ) > (S : ℚ) * (5 / 100)
    · rw [if_pos hs]
      simp only [show ((3 : ℕ) ⊓ (0 + 1)) = 1 from by norm_num, sub_zero]
      norm_num [adjustLastStars, updateFirstN]
      omega
    · rw [if_neg hs]
      have h0 : S = 0 := by
        by_contra hne
        have hpos : 0 < S := lt_of_le_of_ne hS (Ne.symm hne)
        apply hs
        have hq : (0 : ℚ) < (S : ℚ) := by exact_mod_cast hpos
        rw [show S - (0 + 0) = S from by ring, abs_of_nonneg hS]
        nlinarith
      subst h0
      simp
  by_cases hf : ((|F - (0 + 0)| : ℤ) : ℚ) > (F : ℚ) * (5 / 100)
  · rw [if_pos hf, adjustLastForks_map_stars_gained, hstar]
    simp [runningSumsFrom]
  · rw [if_neg hf, hstar]
    simp [runningSumsFrom]

/-- C5: a repository created in the current calendar month produces a
single-record monthly history whose `total_stars_after` equals the
authoritative star total (`total_months` is floored at 1; the single
simulated gain is 0, and reconciliation puts the whole total into the one
record — or, when the total is 0, leaves it at 0). -/
theorem C5_current_month (repo : RepoSnapshot) (stargazers : List (Option Datetime))
    (contributors : List ContributorRecord) (current : Datetime) (rand : ℕ → ℚ)
    (hm1 : 1 ≤ current.month) (hm2 : current.month ≤ 12) (hd : 1 ≤ current.day)
    (hcd : 1 ≤ repo.created_at.day)
    (hy : repo.created_at.year = current.year) (hm : repo.created_at.month = current.month)
    (hle : dtLe repo.created_at current = true)
    (hS : 0 ≤ repo.stargazers_count) :
    ((generate_real_analytics_data repo stargazers contributors current rand).history.map
        (fun r => r.total_stars_after) = [repo.stargazers_count])
    ∧ (generate_real_analytics_data repo stargazers contributors current rand).history.length
        = 1 := by
  have hle' := (dtLe_eq_true_iff _ _).mp hle
  have hB : monthBound repo.created_at.tod current
      = monthIdx repo.created_at.year repo.created_at.month := by
    unfold monthBound
    rw [if_pos (by omega)]
    simp only [monthIdx]
    omega
  have hiff : ∀ j : ℤ, (dtLe (mkCurrentMonth j repo.created_at.tod) current = true)
      ↔ j ≤ monthIdx repo.created_at.year repo.created_at.month := by
    intro j
    rw [dtLe_mkCurrentMonth_iff repo.created_at.tod current hm1 hm2 hd j, hB]
  have hcondI : dtLe (mkCurrentMonth (monthIdx repo.created_at.year repo.created_at.month)
      repo.created_at.tod) current = true := (hiff _).mpr le_rfl
  have hcondI1 : ¬ dtLe (mkCurrentMonth (monthIdx repo.created_at.year repo.created_at.month + 1)
      repo.created_at.tod) current = true := by
    rw [hiff]; omega
  have hmsc : months_since_creation repo.created_at
      (monthIdx repo.created_at.year repo.created_at.month) = 0 := by
    rw [months_since_creation_eq]; omega
  have htm : total_months repo.created_at current = 1 := by
    unfold total_months
    rw [hy, hm]
    simp
  have hloop : monthlyLoop repo stargazers current rand
      (monthIdx repo.created_at.year repo.created_at.month) 0 0 0
      = ([{ year := cmY (monthIdx repo.created_at.year repo.created_at.month),
            month := cmM (monthIdx repo.created_at.year repo.created_at.month),
            stars_gained := 0, forks_gained := 0,
            total_stars_before := 0, total_stars_after := 0,
            total_forks_before := 0, total_forks_after := 0 }], 0) := by
    rw [monthlyLoop, dif_pos hcondI]
    simp only [hmsc, htm, target_cumulative_msc_zero]
    norm_num
    rw [monthlyLoop, dif_neg hcondI1]
    exact ⟨rfl, rfl⟩
  have hhist : (generate_real_analytics_data repo stargazers contributors current rand).history
      = reconcileHistory repo.stargazers_count repo.forks_count
          [{ year := cmY (monthIdx repo.created_at.year repo.created_at.month),
             month := cmM (monthIdx repo.created_at.year repo.created_at.month),
             stars_gained := 0, forks_gained := 0,
             total_stars_before := 0, total_stars_after := 0,
             total_forks_before := 0, total_forks_after := 0 }] := by
    have h0 : (generate_real_analytics_data repo stargazers contributors current rand).history
        = (monthlyHistory repo stargazers current rand).1 := rfl
    rw [h0]
    unfold monthlyHistory
    simp only [hloop]
  have hmap := reconcileHistory_single_zero repo.stargazers_count repo.forks_count
    (cmY (monthIdx repo.created_at.year repo.created_at.month))
    (cmM (monthIdx repo.created_at.year repo.created_at.month)) hS
  constructor
  · rw [hhist]; exact hmap
  · rw [hhist]
    have := congrArg List.length hmap
    simpa using this

/-- Witness for C5: repository created 2023-05-04, current timestamp
2023-05-20, 42 stars. -/
theorem C5_current_month_witness :
    (generate_real_analytics_data
        { created_at := { year := 2023, month := 5, day := 4, tod := 0 },
          stargazers_count := 42, forks_count := 7 }
        [] [] { year := 2023, month := 5, day := 20, tod := 0 } (fun _ => 1/2)).history.map
        (fun r => r.total_stars_after) = [42] := by
  have h := (C5_current_month
    { created_at := { year := 2023, month := 5, day := 4, tod := 0 },
      stargazers_count := 42, forks_count := 7 }
    [] [] { year := 2023, month := 5, day := 20, tod := 0 } (fun _ => 1/2)
    (by norm_num) (by norm_num) (by norm_num) (by norm_num) rfl rfl
    (by decide) (by norm_num)).1
  exact h
